import Mathlib

/-!
Verification of the `ottldatapoint` OTTL context package
(`pkg/ottl/contexts/ottldatapoint/datapoint.go`): the data-point
`TransformContext`, its path resolver `parsePath`/`newPathGetSetter`, the
leaf accessors (`accessCount`, `accessDoubleValue`, ...), the enum symbol
table and `parseEnum`.

The embedding is a shallow one:

* Go's `interface{}` values flowing through `Getter`/`Setter` become the
  closed sum `OTTL.Val`; the untyped `nil` the getters return for a field
  absent from the current variant is `Val.nil`.
* `pmetric` data points become Lean structures; the four-way type switch on
  `tCtx.GetDataPoint()` becomes a match on the tagged union `OTTL.DataPoint`
  (with an `other` case for an `interface{}` holding none of the four).
* Machine integers are `Nat`/`Int` with the Go conversions spelled out:
  `int64(u)` on a `uint64` operand is `toInt64`, `uint64(i)` is `toUint64`,
  `int32(i)` is `toInt32`, `uint32(i)` is `toUint32`.
* float64 fields are carried by bit pattern (`Float64`): the accessors only
  store and load them, never compute with them.
* The stateful setters become explicit state passing: a setter returns the
  updated `TransformContext` together with the (always absent) error.
* Fallible compile-time resolution (`parsePath`, `parseEnum`) returns
  `Except String`.
-/

namespace OTTL

/-- IEEE-754 binary64 values carried by bit pattern. The code under
verification only stores and loads float64 fields, so bit-pattern identity
is exactly what it preserves. `5.0` is `⟨0x4014000000000000⟩`, `1.0` is
`⟨0x3FF0000000000000⟩`, `+0.0` is `⟨0⟩`. -/
structure Float64 where
  bits : Nat
  deriving DecidableEq, Repr

/-- Go conversion `int64(u)` applied to a `uint64` operand: two's-complement
reinterpretation of the low 64 bits. -/
def toInt64 (u : Nat) : Int :=
  if u % 2 ^ 64 < 2 ^ 63 then ((u % 2 ^ 64 : Nat) : Int)
  else ((u % 2 ^ 64 : Nat) : Int) - 2 ^ 64

/-- Go conversion `uint64(i)` applied to an `int64` operand: the value
modulo `2^64`. -/
def toUint64 (i : Int) : Nat := (i % 2 ^ 64).toNat

/-- Go conversion `int32(i)` applied to an `int64` operand: the low 32 bits
reinterpreted as signed. -/
def toInt32 (i : Int) : Int :=
  if i % 2 ^ 32 < 2 ^ 31 then i % 2 ^ 32 else i % 2 ^ 32 - 2 ^ 32

/-- Go conversion `uint32(i)` applied to an `int64` operand
(`pmetric.DataPointFlags` is backed by a `uint32`). -/
def toUint32 (i : Int) : Nat := (i % 2 ^ 32).toNat

/-- `pmetric.ExponentialHistogramDataPointBuckets`: an offset (`int32`) and
a list of bucket counts (`[]uint64`). -/
structure ExponentialHistogramDataPointBuckets where
  offset : Int
  bucketCounts : List Nat

/-- `pcommon.Resource`, reduced to a plain facet: no claim under
verification reads through it, only the delegation of `"resource"` paths is
modelled. -/
structure Resource where
  droppedAttributesCount : Nat

/-- `pcommon.InstrumentationScope`, reduced likewise. -/
structure InstrumentationScope where
  name : String
  version : String
  droppedAttributesCountScope : Nat

/-- `pmetric.Metric`, reduced likewise. -/
structure Metric where
  name : String
  description : String
  unit : String

/-- The dynamically typed values (`interface{}`) that flow through the
`Getter`/`Setter` pairs of this context: one constructor per Go dynamic
type the accessors produce or type-switch on. `nil` is the untyped nil the
getters return for a field absent from the current variant. Exemplars and
quantile values are never inspected by this file's code — only copied
wholesale — so their elements are opaque (`Nat` tokens). -/
inductive Val where
  | nil
  | int (i : Int)
  | double (d : Float64)
  | str (s : String)
  | boolean (b : Bool)
  | map (entries : List (String × Val))
  | uintSlice (xs : List Nat)
  | doubleSlice (xs : List Float64)
  | exemplarSlice (xs : List Nat)
  | buckets (b : ExponentialHistogramDataPointBuckets)
  | quantileSlice (xs : List Nat)
  | resource (r : Resource)
  | scope (s : InstrumentationScope)
  | metric (m : Metric)

/-- The protobuf oneof backing a `pmetric.NumberDataPoint`'s value: unset,
a double, or an int. `DoubleValue()` reads 0 unless the case is `asDouble`;
`SetDoubleValue` switches the case (and symmetrically for int). -/
inductive NumberValue where
  | empty
  | asDouble (d : Float64)
  | asInt (i : Int)

/-- `pmetric.NumberDataPoint`, with the fields this file's accessors touch.
Timestamps are `pcommon.Timestamp` (`uint64` nanoseconds), flags a
`uint32`-backed `pmetric.DataPointFlags`. -/
structure NumberDataPoint where
  attributes : List (String × Val)
  startTimestamp : Nat
  timestamp : Nat
  value : NumberValue
  exemplars : List Nat
  flags : Nat

/-- `pmetric.HistogramDataPoint`. `sum` is an optional field (`HasSum`);
`Sum()` reads 0 when it is unset and `SetSum` makes it present. -/
structure HistogramDataPoint where
  attributes : List (String × Val)
  startTimestamp : Nat
  timestamp : Nat
  count : Nat
  sum : Option Float64
  bucketCounts : List Nat
  explicitBounds : List Float64
  exemplars : List Nat
  flags : Nat

/-- `pmetric.ExponentialHistogramDataPoint`. `scale` is an `int32`, `count`
and `zeroCount` are `uint64`, `sum` is optional as for histograms. -/
structure ExponentialHistogramDataPoint where
  attributes : List (String × Val)
  startTimestamp : Nat
  timestamp : Nat
  count : Nat
  sum : Option Float64
  scale : Int
  zeroCount : Nat
  positive : ExponentialHistogramDataPointBuckets
  negative : ExponentialHistogramDataPointBuckets
  exemplars : List Nat
  flags : Nat

/-- `pmetric.SummaryDataPoint`. Its `sum` is a plain (non-optional) field;
it has no exemplars. -/
structure SummaryDataPoint where
  attributes : List (String × Val)
  startTimestamp : Nat
  timestamp : Nat
  count : Nat
  sum : Float64
  quantileValues : List Nat
  flags : Nat

/-- The dynamic type of `TransformContext.dataPoint` (`interface{}` in the
source): one of the four data-point variants, or anything else (`other`),
on which every type switch falls through to its default. -/
inductive DataPoint where
  | number (n : NumberDataPoint)
  | histogram (h : HistogramDataPoint)
  | expHistogram (e : ExponentialHistogramDataPoint)
  | summary (s : SummaryDataPoint)
  | other

/-- `ottldatapoint.TransformContext`: the subject data point, the owning
metric and its sibling collection (opaque here), the enclosing scope and
resource, and the per-record cache. -/
structure TransformContext where
  dataPoint : DataPoint
  metric : Metric
  metrics : Nat
  instrumentationScope : InstrumentationScope
  resource : Resource
  cache : List (String × Val)

/-- `ottldatapoint.NewTransformContext`: wraps the record with a fresh,
empty cache. -/
def NewTransformContext (dataPoint : DataPoint) (metric : Metric)
    (metrics : Nat) (instrumentationScope : InstrumentationScope)
    (resource : Resource) : TransformContext :=
  { dataPoint := dataPoint
    metric := metric
    metrics := metrics
    instrumentationScope := instrumentationScope
    resource := resource
    cache := [] }

/-- `ottl.StandardGetSetter[TransformContext]`: a bound accessor. The Go
`Getter` returns `(interface{}, error)`; the Go `Setter` mutates the
context's record in place and returns `error` — here it returns the
updated context explicitly. Every function in this file returns a nil
error, modelled as `none`. -/
structure StandardGetSetter where
  Getter : TransformContext → Val × Option String
  Setter : TransformContext → Val → TransformContext × Option String

/-- Modelled from the spec: `ottlcommon.GetMapValue` (its file is not under
src/) — reading a key of a map-valued member yields the entry's value, or
"absent" (untyped nil) when the key is missing. -/
def GetMapValue (m : List (String × Val)) (key : String) : Val :=
  match List.lookup key m with
  | some v => v
  | none => Val.nil

/-- Modelled from the spec: `ottlcommon.SetMapValue` (its file is not under
src/) — writing a key of a map-valued member binds the key to the supplied
dynamically-typed value. The map is observed only through key lookup, so
the new binding simply shadows any earlier one. -/
def SetMapValue (m : List (String × Val)) (key : String) (v : Val) :
    List (String × Val) :=
  (key, v) :: m.filter (fun kv => !(kv.1 == key))

/-- `accessCache`: the whole-cache accessor. Its setter acts only when the
supplied value is a `pcommon.Map` (`CopyTo` replaces the cache contents). -/
def accessCache : StandardGetSetter where
  Getter tCtx := (Val.map tCtx.cache, none)
  Setter tCtx val :=
    match val with
    | .map m => ({ tCtx with cache := m }, none)
    | _ => (tCtx, none)

/-- `accessCacheKey`: one cache entry, via `GetMapValue`/`SetMapValue`. -/
def accessCacheKey (mapKey : String) : StandardGetSetter where
  Getter tCtx := (GetMapValue tCtx.cache mapKey, none)
  Setter tCtx val := ({ tCtx with cache := SetMapValue tCtx.cache mapKey val }, none)

/-- `accessAttributes`: the whole attribute map. The Go setter switches on
the data-point variant first, then checks the value is a `pcommon.Map`. -/
def accessAttributes : StandardGetSetter where
  Getter tCtx :=
    match tCtx.dataPoint with
    | .number n => (Val.map n.attributes, none)
    | .histogram h => (Val.map h.attributes, none)
    | .expHistogram e => (Val.map e.attributes, none)
    | .summary s => (Val.map s.attributes, none)
    | .other => (Val.nil, none)
  Setter tCtx val :=
    match tCtx.dataPoint with
    | .number n =>
      match val with
      | .map m => ({ tCtx with dataPoint := .number { n with attributes := m } }, none)
      | _ => (tCtx, none)
    | .histogram h =>
      match val with
      | .map m => ({ tCtx with dataPoint := .histogram { h with attributes := m } }, none)
      | _ => (tCtx, none)
    | .expHistogram e =>
      match val with
      | .map m => ({ tCtx with dataPoint := .expHistogram { e with attributes := m } }, none)
      | _ => (tCtx, none)
    | .summary s =>
      match val with
      | .map m => ({ tCtx with dataPoint := .summary { s with attributes := m } }, none)
      | _ => (tCtx, none)
    | .other => (tCtx, none)

/-- `accessAttributesKey`: one attribute entry, via `GetMapValue` /
`SetMapValue`, dispatching on the variant. -/
def accessAttributesKey (mapKey : String) : StandardGetSetter where
  Getter tCtx :=
    match tCtx.dataPoint with
    | .number n => (GetMapValue n.attributes mapKey, none)
    | .histogram h => (GetMapValue h.attributes mapKey, none)
    | .expHistogram e => (GetMapValue e.attributes mapKey, none)
    | .summary s => (GetMapValue s.attributes mapKey, none)
    | .other => (Val.nil, none)
  Setter tCtx val :=
    match tCtx.dataPoint with
    | .number n =>
      ({ tCtx with dataPoint := .number { n with attributes := SetMapValue n.attributes mapKey val } }, none)
    | .histogram h =>
      ({ tCtx with dataPoint := .histogram { h with attributes := SetMapValue h.attributes mapKey val } }, none)
    | .expHistogram e =>
      ({ tCtx with dataPoint := .expHistogram { e with attributes := SetMapValue e.attributes mapKey val } }, none)
    | .summary s =>
      ({ tCtx with dataPoint := .summary { s with attributes := SetMapValue s.attributes mapKey val } }, none)
    | .other => (tCtx, none)

/-- `accessStartTimeUnixNano`. The getter is
`StartTimestamp().AsTime().UnixNano()`: the stored `uint64` nanosecond
timestamp read back as an `int64`, i.e. `toInt64`. The setter is
`SetStartTimestamp(pcommon.NewTimestampFromTime(time.Unix(0, newTime)))`:
`time.Unix(0, n).UnixNano() = n` for every `int64` `n`, and
`NewTimestampFromTime` stores `uint64(UnixNano())`, i.e. `toUint64`. -/
def accessStartTimeUnixNano : StandardGetSetter where
  Getter tCtx :=
    match tCtx.dataPoint with
    | .number n => (Val.int (toInt64 n.startTimestamp), none)
    | .histogram h => (Val.int (toInt64 h.startTimestamp), none)
    | .expHistogram e => (Val.int (toInt64 e.startTimestamp), none)
    | .summary s => (Val.int (toInt64 s.startTimestamp), none)
    | .other => (Val.nil, none)
  Setter tCtx val :=
    match val with
    | .int newTime =>
      match tCtx.dataPoint with
      | .number n =>
        ({ tCtx with dataPoint := .number { n with startTimestamp := toUint64 newTime } }, none)
      | .histogram h =>
        ({ tCtx with dataPoint := .histogram { h with startTimestamp := toUint64 newTime } }, none)
      | .expHistogram e =>
        ({ tCtx with dataPoint := .expHistogram { e with startTimestamp := toUint64 newTime } }, none)
      | .summary s =>
        ({ tCtx with dataPoint := .summary { s with startTimestamp := toUint64 newTime } }, none)
      | .other => (tCtx, none)
    | _ => (tCtx, none)

/-- `accessTimeUnixNano`: as `accessStartTimeUnixNano`, on `Timestamp`. -/
def accessTimeUnixNano : StandardGetSetter where
  Getter tCtx :=
    match tCtx.dataPoint with
    | .number n => (Val.int (toInt64 n.timestamp), none)
    | .histogram h => (Val.int (toInt64 h.timestamp), none)
    | .expHistogram e => (Val.int (toInt64 e.timestamp), none)
    | .summary s => (Val.int (toInt64 s.timestamp), none)
    | .other => (Val.nil, none)
  Setter tCtx val :=
    match val with
    | .int newTime =>
      match tCtx.dataPoint with
      | .number n =>
        ({ tCtx with dataPoint := .number { n with timestamp := toUint64 newTime } }, none)
      | .histogram h =>
        ({ tCtx with dataPoint := .histogram { h with timestamp := toUint64 newTime } }, none)
      | .expHistogram e =>
        ({ tCtx with dataPoint := .expHistogram { e with timestamp := toUint64 newTime } }, none)
      | .summary s =>
        ({ tCtx with dataPoint := .summary { s with timestamp := toUint64 newTime } }, none)
      | .other => (tCtx, none)
    | _ => (tCtx, none)

/-- `pmetric.NumberDataPoint.DoubleValue()`: the oneof's double case, or 0
when the stored value is empty or an int. -/
def NumberDataPoint.DoubleValue (n : NumberDataPoint) : Float64 :=
  match n.value with
  | .asDouble d => d
  | _ => ⟨0⟩

/-- `pmetric.NumberDataPoint.IntValue()`: the oneof's int case, or 0. -/
def NumberDataPoint.IntValue (n : NumberDataPoint) : Int :=
  match n.value with
  | .asInt i => i
  | _ => 0

/-- `accessDoubleValue`: `value_double`, a Number-only field. The setter
`SetDoubleValue` switches the oneof to the double case. -/
def accessDoubleValue : StandardGetSetter where
  Getter tCtx :=
    match tCtx.dataPoint with
    | .number n => (Val.double n.DoubleValue, none)
    | _ => (Val.nil, none)
  Setter tCtx val :=
    match val with
    | .double newDouble =>
      match tCtx.dataPoint with
      | .number n =>
        ({ tCtx with dataPoint := .number { n with value := .asDouble newDouble } }, none)
      | _ => (tCtx, none)
    | _ => (tCtx, none)

/-- `accessIntValue`: `value_int`, a Number-only field; `SetIntValue`
switches the oneof to the int case. -/
def accessIntValue : StandardGetSetter where
  Getter tCtx :=
    match tCtx.dataPoint with
    | .number n => (Val.int n.IntValue, none)
    | _ => (Val.nil, none)
  Setter tCtx val :=
    match val with
    | .int newInt =>
      match tCtx.dataPoint with
      | .number n =>
        ({ tCtx with dataPoint := .number { n with value := .asInt newInt } }, none)
      | _ => (tCtx, none)
    | _ => (tCtx, none)

/-- `accessExemplars`: defined for Number, Histogram and
ExponentialHistogram; a Summary data point has no exemplars, so it falls to
the type switch's default. The setter copies the supplied slice wholesale. -/
def accessExemplars : StandardGetSetter where
  Getter tCtx :=
    match tCtx.dataPoint with
    | .number n => (Val.exemplarSlice n.exemplars, none)
    | .histogram h => (Val.exemplarSlice h.exemplars, none)
    | .expHistogram e => (Val.exemplarSlice e.exemplars, none)
    | _ => (Val.nil, none)
  Setter tCtx val :=
    match val with
    | .exemplarSlice newExemplars =>
      match tCtx.dataPoint with
      | .number n =>
        ({ tCtx with dataPoint := .number { n with exemplars := newExemplars } }, none)
      | .histogram h =>
        ({ tCtx with dataPoint := .histogram { h with exemplars := newExemplars } }, none)
      | .expHistogram e =>
        ({ tCtx with dataPoint := .expHistogram { e with exemplars := newExemplars } }, none)
      | _ => (tCtx, none)
    | _ => (tCtx, none)

/-- `accessFlags`: `int64(Flags())` on every variant; the setter stores
`pmetric.DataPointFlags(newFlags)`, a `uint32` conversion. -/
def accessFlags : StandardGetSetter where
  Getter tCtx :=
    match tCtx.dataPoint with
    | .number n => (Val.int (n.flags : Int), none)
    | .histogram h => (Val.int (h.flags : Int), none)
    | .expHistogram e => (Val.int (e.flags : Int), none)
    | .summary s => (Val.int (s.flags : Int), none)
    | .other => (Val.nil, none)
  Setter tCtx val :=
    match val with
    | .int newFlags =>
      match tCtx.dataPoint with
      | .number n =>
        ({ tCtx with dataPoint := .number { n with flags := toUint32 newFlags } }, none)
      | .histogram h =>
        ({ tCtx with dataPoint := .histogram { h with flags := toUint32 newFlags } }, none)
      | .expHistogram e =>
        ({ tCtx with dataPoint := .expHistogram { e with flags := toUint32 newFlags } }, none)
      | .summary s =>
        ({ tCtx with dataPoint := .summary { s with flags := toUint32 newFlags } }, none)
      | .other => (tCtx, none)
    | _ => (tCtx, none)

/-- `accessCount`: `int64(Count())` for Histogram, ExponentialHistogram and
Summary (a Number data point has no count); the setter stores
`uint64(newCount)`. -/
def accessCount : StandardGetSetter where
  Getter tCtx :=
    match tCtx.dataPoint with
    | .histogram h => (Val.int (toInt64 h.count), none)
    | .expHistogram e => (Val.int (toInt64 e.count), none)
    | .summary s => (Val.int (toInt64 s.count), none)
    | _ => (Val.nil, none)
  Setter tCtx val :=
    match val with
    | .int newCount =>
      match tCtx.dataPoint with
      | .histogram h =>
        ({ tCtx with dataPoint := .histogram { h with count := toUint64 newCount } }, none)
      | .expHistogram e =>
        ({ tCtx with dataPoint := .expHistogram { e with count := toUint64 newCount } }, none)
      | .summary s =>
        ({ tCtx with dataPoint := .summary { s with count := toUint64 newCount } }, none)
      | _ => (tCtx, none)
    | _ => (tCtx, none)

/-- `accessSum`: `Sum()` for Histogram, ExponentialHistogram and Summary.
For the two histogram kinds the field is optional and reads 0 when unset;
`SetSum` makes it present. -/
def accessSum : StandardGetSetter where
  Getter tCtx :=
    match tCtx.dataPoint with
    | .histogram h => (Val.double (h.sum.getD ⟨0⟩), none)
    | .expHistogram e => (Val.double (e.sum.getD ⟨0⟩), none)
    | .summary s => (Val.double s.sum, none)
    | _ => (Val.nil, none)
  Setter tCtx val :=
    match val with
    | .double newSum =>
      match tCtx.dataPoint with
      | .histogram h =>
        ({ tCtx with dataPoint := .histogram { h with sum := some newSum } }, none)
      | .expHistogram e =>
        ({ tCtx with dataPoint := .expHistogram { e with sum := some newSum } }, none)
      | .summary s =>
        ({ tCtx with dataPoint := .summary { s with sum := newSum } }, none)
      | _ => (tCtx, none)
    | _ => (tCtx, none)

/-- `accessExplicitBounds`: Histogram-only; `AsRaw`/`FromRaw` copy the
`[]float64` wholesale. -/
def accessExplicitBounds : StandardGetSetter where
  Getter tCtx :=
    match tCtx.dataPoint with
    | .histogram h => (Val.doubleSlice h.explicitBounds, none)
    | _ => (Val.nil, none)
  Setter tCtx val :=
    match val with
    | .doubleSlice newExplicitBounds =>
      match tCtx.dataPoint with
      | .histogram h =>
        ({ tCtx with dataPoint := .histogram { h with explicitBounds := newExplicitBounds } }, none)
      | _ => (tCtx, none)
    | _ => (tCtx, none)

/-- `accessBucketCounts`: Histogram-only; `AsRaw`/`FromRaw` copy the
`[]uint64` wholesale. -/
def accessBucketCounts : StandardGetSetter where
  Getter tCtx :=
    match tCtx.dataPoint with
    | .histogram h => (Val.uintSlice h.bucketCounts, none)
    | _ => (Val.nil, none)
  Setter tCtx val :=
    match val with
    | .uintSlice newBucketCount =>
      match tCtx.dataPoint with
      | .histogram h =>
        ({ tCtx with dataPoint := .histogram { h with bucketCounts := newBucketCount } }, none)
      | _ => (tCtx, none)
    | _ => (tCtx, none)

/-- `accessScale`: ExponentialHistogram-only; `int64(Scale())` is
value-preserving on the stored `int32`, and the setter stores
`int32(newScale)`. -/
def accessScale : StandardGetSetter where
  Getter tCtx :=
    match tCtx.dataPoint with
    | .expHistogram e => (Val.int e.scale, none)
    | _ => (Val.nil, none)
  Setter tCtx val :=
    match val with
    | .int newScale =>
      match tCtx.dataPoint with
      | .expHistogram e =>
        ({ tCtx with dataPoint := .expHistogram { e with scale := toInt32 newScale } }, none)
      | _ => (tCtx, none)
    | _ => (tCtx, none)

/-- `accessZeroCount`: ExponentialHistogram-only; conversions as for
`accessCount`. -/
def accessZeroCount : StandardGetSetter where
  Getter tCtx :=
    match tCtx.dataPoint with
    | .expHistogram e => (Val.int (toInt64 e.zeroCount), none)
    | _ => (Val.nil, none)
  Setter tCtx val :=
    match val with
    | .int newZeroCount =>
      match tCtx.dataPoint with
      | .expHistogram e =>
        ({ tCtx with dataPoint := .expHistogram { e with zeroCount := toUint64 newZeroCount } }, none)
      | _ => (tCtx, none)
    | _ => (tCtx, none)

/-- `accessPositive`: the whole positive-buckets substructure; the setter
copies a supplied buckets value wholesale. -/
def accessPositive : StandardGetSetter where
  Getter tCtx :=
    match tCtx.dataPoint with
    | .expHistogram e => (Val.buckets e.positive, none)
    | _ => (Val.nil, none)
  Setter tCtx val :=
    match val with
    | .buckets newPositive =>
      match tCtx.dataPoint with
      | .expHistogram e =>
        ({ tCtx with dataPoint := .expHistogram { e with positive := newPositive } }, none)
      | _ => (tCtx, none)
    | _ => (tCtx, none)

/-- `accessPositiveOffset`: `int64(Positive().Offset())`; the setter
stores `int32(newPositiveOffset)`. -/
def accessPositiveOffset : StandardGetSetter where
  Getter tCtx :=
    match tCtx.dataPoint with
    | .expHistogram e => (Val.int e.positive.offset, none)
    | _ => (Val.nil, none)
  Setter tCtx val :=
    match val with
    | .int newPositiveOffset =>
      match tCtx.dataPoint with
      | .expHistogram e =>
        ({ tCtx with dataPoint := .expHistogram { e with positive := { e.positive with offset := toInt32 newPositiveOffset } } }, none)
      | _ => (tCtx, none)
    | _ => (tCtx, none)

/-- `accessPositiveBucketCounts`: `Positive().BucketCounts()` copied
wholesale via `AsRaw`/`FromRaw`. -/
def accessPositiveBucketCounts : StandardGetSetter where
  Getter tCtx :=
    match tCtx.dataPoint with
    | .expHistogram e => (Val.uintSlice e.positive.bucketCounts, none)
    | _ => (Val.nil, none)
  Setter tCtx val :=
    match val with
    | .uintSlice newPositiveBucketCounts =>
      match tCtx.dataPoint with
      | .expHistogram e =>
        ({ tCtx with dataPoint := .expHistogram { e with positive := { e.positive with bucketCounts := newPositiveBucketCounts } } }, none)
      | _ => (tCtx, none)
    | _ => (tCtx, none)

/-- `accessNegative`: as `accessPositive`, on the negative buckets. -/
def accessNegative : StandardGetSetter where
  Getter tCtx :=
    match tCtx.dataPoint with
    | .expHistogram e => (Val.buckets e.negative, none)
    | _ => (Val.nil, none)
  Setter tCtx val :=
    match val with
    | .buckets newNegative =>
      match tCtx.dataPoint with
      | .expHistogram e =>
        ({ tCtx with dataPoint := .expHistogram { e with negative := newNegative } }, none)
      | _ => (tCtx, none)
    | _ => (tCtx, none)

/-- `accessNegativeOffset`: as `accessPositiveOffset`. -/
def accessNegativeOffset : StandardGetSetter where
  Getter tCtx :=
    match tCtx.dataPoint with
    | .expHistogram e => (Val.int e.negative.offset, none)
    | _ => (Val.nil, none)
  Setter tCtx val :=
    match val with
    | .int newNegativeOffset =>
      match tCtx.dataPoint with
      | .expHistogram e =>
        ({ tCtx with dataPoint := .expHistogram { e with negative := { e.negative with offset := toInt32 newNegativeOffset } } }, none)
      | _ => (tCtx, none)
    | _ => (tCtx, none)

/-- `accessNegativeBucketCounts`: as `accessPositiveBucketCounts`. -/
def accessNegativeBucketCounts : StandardGetSetter where
  Getter tCtx :=
    match tCtx.dataPoint with
    | .expHistogram e => (Val.uintSlice e.negative.bucketCounts, none)
    | _ => (Val.nil, none)
  Setter tCtx val :=
    match val with
    | .uintSlice newNegativeBucketCounts =>
      match tCtx.dataPoint with
      | .expHistogram e =>
        ({ tCtx with dataPoint := .expHistogram { e with negative := { e.negative with bucketCounts := newNegativeBucketCounts } } }, none)
      | _ => (tCtx, none)
    | _ => (tCtx, none)

/-- `accessQuantileValues`: Summary-only; the setter copies the supplied
slice wholesale. -/
def accessQuantileValues : StandardGetSetter where
  Getter tCtx :=
    match tCtx.dataPoint with
    | .summary s => (Val.quantileSlice s.quantileValues, none)
    | _ => (Val.nil, none)
  Setter tCtx val :=
    match val with
    | .quantileSlice newQuantileValues =>
      match tCtx.dataPoint with
      | .summary s =>
        ({ tCtx with dataPoint := .summary { s with quantileValues := newQuantileValues } }, none)
      | _ => (tCtx, none)
    | _ => (tCtx, none)

/-- `ottl.Field`: one path segment — a name and an optional map key. -/
structure Field where
  Name : String
  MapKey : Option String

/-- `ottl.Path`: the ordered segments of a field-access expression. -/
structure Path where
  Fields : List Field

/-- One segment as text, for the error messages (Go renders the offending
path with `fmt`'s `%v` verb; the exact rendering is abstracted). -/
def fieldToString (f : Field) : String :=
  match f.MapKey with
  | none => f.Name
  | some k => f.Name ++ "[" ++ k ++ "]"

/-- A whole path as text, for the error messages. -/
def pathToString (path : List Field) : String :=
  String.intercalate " " (path.map fieldToString)

/-- The `"invalid path expression %v"` error of `newPathGetSetter`,
identifying the full offending path. -/
def invalidPathMsg (path : List Field) : String :=
  "invalid path expression " ++ pathToString path

/-- Modelled from the spec: `ottlcommon.ResourcePathGetSetter` (its file is
not under src/) — the shared resource sub-resolver every context kind
delegates to. No remaining segments resolve the whole facet; an
unresolvable segment is a compile-time error naming it. -/
def ResourcePathGetSetter (path : List Field) : Except String StandardGetSetter :=
  match path with
  | [] => .ok
      { Getter := fun tCtx => (Val.resource tCtx.resource, none)
        Setter := fun tCtx val =>
          match val with
          | .resource r => ({ tCtx with resource := r }, none)
          | _ => (tCtx, none) }
  | f :: _ =>
    if f.Name = "dropped_attributes_count" then
      .ok
        { Getter := fun tCtx => (Val.int (tCtx.resource.droppedAttributesCount : Int), none)
          Setter := fun tCtx val =>
            match val with
            | .int i => ({ tCtx with resource := { tCtx.resource with droppedAttributesCount := toUint32 i } }, none)
            | _ => (tCtx, none) }
    else .error (invalidPathMsg path)

/-- Modelled from the spec: `ottlcommon.ScopePathGetSetter` (not under
src/) — the shared instrumentation-scope sub-resolver. -/
def ScopePathGetSetter (path : List Field) : Except String StandardGetSetter :=
  match path with
  | [] => .ok
      { Getter := fun tCtx => (Val.scope tCtx.instrumentationScope, none)
        Setter := fun tCtx val =>
          match val with
          | .scope s => ({ tCtx with instrumentationScope := s }, none)
          | _ => (tCtx, none) }
  | f :: _ =>
    if f.Name = "name" then
      .ok
        { Getter := fun tCtx => (Val.str tCtx.instrumentationScope.name, none)
          Setter := fun tCtx val =>
            match val with
            | .str s => ({ tCtx with instrumentationScope := { tCtx.instrumentationScope with name := s } }, none)
            | _ => (tCtx, none) }
    else if f.Name = "version" then
      .ok
        { Getter := fun tCtx => (Val.str tCtx.instrumentationScope.version, none)
          Setter := fun tCtx val =>
            match val with
            | .str s => ({ tCtx with instrumentationScope := { tCtx.instrumentationScope with version := s } }, none)
            | _ => (tCtx, none) }
    else .error (invalidPathMsg path)

/-- Modelled from the spec: `ottlcommon.MetricPathGetSetter` (not under
src/) — the sub-resolver for the owning metric's own fields. -/
def MetricPathGetSetter (path : List Field) : Except String StandardGetSetter :=
  match path with
  | [] => .ok
      { Getter := fun tCtx => (Val.metric tCtx.metric, none)
        Setter := fun tCtx val =>
          match val with
          | .metric m => ({ tCtx with metric := m }, none)
          | _ => (tCtx, none) }
  | f :: _ =>
    if f.Name = "name" then
      .ok
        { Getter := fun tCtx => (Val.str tCtx.metric.name, none)
          Setter := fun tCtx val =>
            match val with
            | .str s => ({ tCtx with metric := { tCtx.metric with name := s } }, none)
            | _ => (tCtx, none) }
    else if f.Name = "description" then
      .ok
        { Getter := fun tCtx => (Val.str tCtx.metric.description, none)
          Setter := fun tCtx val =>
            match val with
            | .str s => ({ tCtx with metric := { tCtx.metric with description := s } }, none)
            | _ => (tCtx, none) }
    else if f.Name = "unit" then
      .ok
        { Getter := fun tCtx => (Val.str tCtx.metric.unit, none)
          Setter := fun tCtx val =>
            match val with
            | .str s => ({ tCtx with metric := { tCtx.metric with unit := s } }, none)
            | _ => (tCtx, none) }
    else .error (invalidPathMsg path)

/-- `newPathGetSetter`: the fixed compile-time dispatch on the first
segment's name (a Go `switch`, modelled as the equivalent chain of
equality tests), descending to the second segment for the two-level
`positive`/`negative` substructures, and falling through to the
`"invalid path expression %v"` error. The `[]` case is unreachable:
`parsePath` only calls it on a non-empty path. -/
def newPathGetSetter (path : List Field) : Except String StandardGetSetter :=
  match path with
  | [] => .error (invalidPathMsg path)
  | f :: rest =>
    if f.Name = "cache" then
      match f.MapKey with
      | none => .ok accessCache
      | some mapKey => .ok (accessCacheKey mapKey)
    else if f.Name = "resource" then ResourcePathGetSetter rest
    else if f.Name = "instrumentation_scope" then ScopePathGetSetter rest
    else if f.Name = "metric" then MetricPathGetSetter rest
    else if f.Name = "attributes" then
      match f.MapKey with
      | none => .ok accessAttributes
      | some mapKey => .ok (accessAttributesKey mapKey)
    else if f.Name = "start_time_unix_nano" then .ok accessStartTimeUnixNano
    else if f.Name = "time_unix_nano" then .ok accessTimeUnixNano
    else if f.Name = "value_double" then .ok accessDoubleValue
    else if f.Name = "value_int" then .ok accessIntValue
    else if f.Name = "exemplars" then .ok accessExemplars
    else if f.Name = "flags" then .ok accessFlags
    else if f.Name = "count" then .ok accessCount
    else if f.Name = "sum" then .ok accessSum
    else if f.Name = "bucket_counts" then .ok accessBucketCounts
    else if f.Name = "explicit_bounds" then .ok accessExplicitBounds
    else if f.Name = "scale" then .ok accessScale
    else if f.Name = "zero_count" then .ok accessZeroCount
    else if f.Name = "positive" then
      match rest with
      | [] => .ok accessPositive
      | f2 :: _ =>
        if f2.Name = "offset" then .ok accessPositiveOffset
        else if f2.Name = "bucket_counts" then .ok accessPositiveBucketCounts
        else .error (invalidPathMsg path)
    else if f.Name = "negative" then
      match rest with
      | [] => .ok accessNegative
      | f2 :: _ =>
        if f2.Name = "offset" then .ok accessNegativeOffset
        else if f2.Name = "bucket_counts" then .ok accessNegativeBucketCounts
        else .error (invalidPathMsg path)
    else if f.Name = "quantile_values" then .ok accessQuantileValues
    else .error (invalidPathMsg path)

/-- `parsePath`: a nil path or a path with no fields is the
`"bad path %v"` error; otherwise the fields are dispatched. Resolution is a
function of the path alone — no record is consulted. -/
def parsePath (val : Option Path) : Except String StandardGetSetter :=
  match val with
  | some p =>
    if p.Fields.length > 0 then newPathGetSetter p.Fields
    else .error ("bad path " ++ pathToString p.Fields)
  | none => .error "bad path <nil>"

/-- Whether the association-list model of a Go map holds a key. -/
def containsKey (m : List (String × Int)) (k : String) : Bool :=
  m.any (fun kv => kv.1 == k)

/-- Go map assignment `m[k] = v` on the association-list model of a map
with unique keys: replace the value at an existing key, otherwise append
the binding. -/
def mapInsert (m : List (String × Int)) (k : String) (v : Int) :
    List (String × Int) :=
  if containsKey m k then
    m.map (fun kv => if kv.1 == k then (k, v) else kv)
  else m ++ [(k, v)]

/-- Lookup in the association-list model of a Go map. -/
def tableLookup (m : List (String × Int)) (k : String) : Option Int :=
  List.lookup k m

/-- The context-specific entries of the data-point context's symbol table:
the literal `symbolTable` map of the source, before `init` runs. -/
def symbolTableLit : List (String × Int) :=
  [("FLAG_NONE", 0), ("FLAG_NO_RECORDED_VALUE", 1)]

/-- The `init` function's merge, generic in the base table: starting from
the context-specific literal, every entry of the shared base table is
inserted over it (`for k, v := range ottlcommon.MetricSymbolTable
{ symbolTable[k] = v }`). The iteration order of a Go map is unspecified,
but the base table's keys are unique, so the resulting map is
order-independent. -/
def mergedTable (base : List (String × Int)) : List (String × Int) :=
  base.foldl (fun acc kv => mapInsert acc kv.1 kv.2) symbolTableLit

/-- Follows the claim's words, not the source: "constructed by first
copying the shared base table and then inserting the context-specific
entries", so that a context-specific entry would win a key collision. -/
def mergedTableClaim (base : List (String × Int)) : List (String × Int) :=
  symbolTableLit.foldl (fun acc kv => mapInsert acc kv.1 kv.2) base

/-- Modelled from the spec: the shared base enum table
(`ottlcommon.MetricSymbolTable`, not under src/) — the metric-level
symbols; it has no `FLAG_*` entries. -/
def MetricSymbolTable : List (String × Int) :=
  [("AGGREGATION_TEMPORALITY_UNSPECIFIED", 0),
   ("AGGREGATION_TEMPORALITY_DELTA", 1),
   ("AGGREGATION_TEMPORALITY_CUMULATIVE", 2),
   ("METRIC_DATA_TYPE_NONE", 0),
   ("METRIC_DATA_TYPE_GAUGE", 1),
   ("METRIC_DATA_TYPE_SUM", 2),
   ("METRIC_DATA_TYPE_HISTOGRAM", 3),
   ("METRIC_DATA_TYPE_EXPONENTIAL_HISTOGRAM", 4),
   ("METRIC_DATA_TYPE_SUMMARY", 5)]

/-- The data-point context's symbol table after `init` has merged the
shared base table into the context-specific literal. -/
def symbolTable : List (String × Int) := mergedTable MetricSymbolTable

/-- `parseEnum`: a nil symbol and a symbol missing from the merged table
are errors; a present symbol resolves to its value. -/
def parseEnum (val : Option String) : Except String Int :=
  match val with
  | some s =>
    match tableLookup symbolTable s with
    | some enum => .ok enum
    | none => .error ("enum symbol, " ++ s ++ ", not found")
  | none => .error "enum symbol not provided"

/-- The data-point field accessors `newPathGetSetter` can produce, one
constructor per leaf accessor over the subject data point (the keyed
attribute/cache accessors and the delegated resource/scope/metric
sub-resolvers are separate). -/
inductive FieldId where
  | startTimeUnixNano
  | timeUnixNano
  | valueDouble
  | valueInt
  | exemplars
  | flags
  | count
  | sum
  | bucketCounts
  | explicitBounds
  | scale
  | zeroCount
  | positive
  | positiveOffset
  | positiveBucketCounts
  | negative
  | negativeOffset
  | negativeBucketCounts
  | quantileValues
  | attributes
  deriving DecidableEq

/-- The accessor `newPathGetSetter` produces for each data-point field. -/
def fieldAccessor : FieldId → StandardGetSetter
  | .startTimeUnixNano => accessStartTimeUnixNano
  | .timeUnixNano => accessTimeUnixNano
  | .valueDouble => accessDoubleValue
  | .valueInt => accessIntValue
  | .exemplars => accessExemplars
  | .flags => accessFlags
  | .count => accessCount
  | .sum => accessSum
  | .bucketCounts => accessBucketCounts
  | .explicitBounds => accessExplicitBounds
  | .scale => accessScale
  | .zeroCount => accessZeroCount
  | .positive => accessPositive
  | .positiveOffset => accessPositiveOffset
  | .positiveBucketCounts => accessPositiveBucketCounts
  | .negative => accessNegative
  | .negativeOffset => accessNegativeOffset
  | .negativeBucketCounts => accessNegativeBucketCounts
  | .quantileValues => accessQuantileValues
  | .attributes => accessAttributes

/-- Which fields are defined for which variant: timestamps, flags and
attributes for all four; values for Number only; exemplars for all but
Summary; count and sum for the three aggregate kinds; buckets and bounds
for Histogram; scale, zero count and the signed bucket substructures for
ExponentialHistogram; quantile values for Summary. Nothing is defined for
a subject that is none of the four variants. -/
def definedFor (f : FieldId) (dp : DataPoint) : Bool :=
  match dp with
  | .number _ =>
    match f with
    | .startTimeUnixNano | .timeUnixNano | .valueDouble | .valueInt
    | .exemplars | .flags | .attributes => true
    | _ => false
  | .histogram _ =>
    match f with
    | .startTimeUnixNano | .timeUnixNano | .exemplars | .flags | .count
    | .sum | .bucketCounts | .explicitBounds | .attributes => true
    | _ => false
  | .expHistogram _ =>
    match f with
    | .startTimeUnixNano | .timeUnixNano | .exemplars | .flags | .count
    | .sum | .scale | .zeroCount | .positive | .positiveOffset
    | .positiveBucketCounts | .negative | .negativeOffset
    | .negativeBucketCounts | .attributes => true
    | _ => false
  | .summary _ =>
    match f with
    | .startTimeUnixNano | .timeUnixNano | .flags | .count | .sum
    | .quantileValues | .attributes => true
    | _ => false
  | .other => false

/-- The value each field holds on each variant, written per variant from
the record structures (the reference the getters are checked against):
`Val.nil` where the variant lacks the field. -/
def fieldValue (f : FieldId) (dp : DataPoint) : Val :=
  match dp with
  | .number n =>
    match f with
    | .startTimeUnixNano => Val.int (toInt64 n.startTimestamp)
    | .timeUnixNano => Val.int (toInt64 n.timestamp)
    | .valueDouble => Val.double n.DoubleValue
    | .valueInt => Val.int n.IntValue
    | .exemplars => Val.exemplarSlice n.exemplars
    | .flags => Val.int (n.flags : Int)
    | .attributes => Val.map n.attributes
    | _ => Val.nil
  | .histogram h =>
    match f with
    | .startTimeUnixNano => Val.int (toInt64 h.startTimestamp)
    | .timeUnixNano => Val.int (toInt64 h.timestamp)
    | .exemplars => Val.exemplarSlice h.exemplars
    | .flags => Val.int (h.flags : Int)
    | .count => Val.int (toInt64 h.count)
    | .sum => Val.double (h.sum.getD ⟨0⟩)
    | .bucketCounts => Val.uintSlice h.bucketCounts
    | .explicitBounds => Val.doubleSlice h.explicitBounds
    | .attributes => Val.map h.attributes
    | _ => Val.nil
  | .expHistogram e =>
    match f with
    | .startTimeUnixNano => Val.int (toInt64 e.startTimestamp)
    | .timeUnixNano => Val.int (toInt64 e.timestamp)
    | .exemplars => Val.exemplarSlice e.exemplars
    | .flags => Val.int (e.flags : Int)
    | .count => Val.int (toInt64 e.count)
    | .sum => Val.double (e.sum.getD ⟨0⟩)
    | .scale => Val.int e.scale
    | .zeroCount => Val.int (toInt64 e.zeroCount)
    | .positive => Val.buckets e.positive
    | .positiveOffset => Val.int e.positive.offset
    | .positiveBucketCounts => Val.uintSlice e.positive.bucketCounts
    | .negative => Val.buckets e.negative
    | .negativeOffset => Val.int e.negative.offset
    | .negativeBucketCounts => Val.uintSlice e.negative.bucketCounts
    | .attributes => Val.map e.attributes
    | _ => Val.nil
  | .summary s =>
    match f with
    | .startTimeUnixNano => Val.int (toInt64 s.startTimestamp)
    | .timeUnixNano => Val.int (toInt64 s.timestamp)
    | .flags => Val.int (s.flags : Int)
    | .count => Val.int (toInt64 s.count)
    | .sum => Val.double s.sum
    | .quantileValues => Val.quantileSlice s.quantileValues
    | .attributes => Val.map s.attributes
    | _ => Val.nil
  | .other => Val.nil

/-- Whether a dynamic value's type matches the type a field's setter
asserts (`val.(int64)`, `val.(float64)`, ...). -/
def typeMatches (f : FieldId) (v : Val) : Bool :=
  match f, v with
  | .startTimeUnixNano, .int _ => true
  | .timeUnixNano, .int _ => true
  | .valueDouble, .double _ => true
  | .valueInt, .int _ => true
  | .exemplars, .exemplarSlice _ => true
  | .flags, .int _ => true
  | .count, .int _ => true
  | .sum, .double _ => true
  | .bucketCounts, .uintSlice _ => true
  | .explicitBounds, .doubleSlice _ => true
  | .scale, .int _ => true
  | .zeroCount, .int _ => true
  | .positive, .buckets _ => true
  | .positiveOffset, .int _ => true
  | .positiveBucketCounts, .uintSlice _ => true
  | .negative, .buckets _ => true
  | .negativeOffset, .int _ => true
  | .negativeBucketCounts, .uintSlice _ => true
  | .quantileValues, .quantileSlice _ => true
  | .attributes, .map _ => true
  | _, _ => false

/-- Whether the subject is one of the four data-point variants. -/
def DataPoint.isVariant : DataPoint → Bool
  | .other => false
  | _ => true

/-- The numeric well-formedness every data point built by `pdata` has:
`uint64` fields below `2 ^ 64` and `uint32`-backed flags below `2 ^ 32`
(the embedding carries them as unbounded `Nat`). -/
def DataPoint.wf : DataPoint → Prop
  | .number n => n.startTimestamp < 2 ^ 64 ∧ n.timestamp < 2 ^ 64 ∧ n.flags < 2 ^ 32
  | .histogram h =>
      h.startTimestamp < 2 ^ 64 ∧ h.timestamp < 2 ^ 64 ∧ h.count < 2 ^ 64 ∧ h.flags < 2 ^ 32
  | .expHistogram e =>
      e.startTimestamp < 2 ^ 64 ∧ e.timestamp < 2 ^ 64 ∧ e.count < 2 ^ 64 ∧
        e.zeroCount < 2 ^ 64 ∧ e.flags < 2 ^ 32
  | .summary s =>
      s.startTimestamp < 2 ^ 64 ∧ s.timestamp < 2 ^ 64 ∧ s.count < 2 ^ 64 ∧ s.flags < 2 ^ 32
  | .other => True

/-- Writing back the `int64` read of a stored `uint64` restores the stored
value: the two Go reinterpretations are mutually inverse on `[0, 2^64)`. -/
theorem toUint64_toInt64 (u : Nat) (hu : u < 2 ^ 64) : toUint64 (toInt64 u) = u := by
  unfold toInt64 toUint64
  split <;> omega

/-- Lookup skips a head whose key differs. -/
theorem lookup_cons_ne {β : Type} (k k1 : String) (v : β) (t : List (String × β))
    (h : k ≠ k1) : List.lookup k ((k1, v) :: t) = List.lookup k t := by
  rw [List.lookup_cons, beq_false_of_ne h]

/-- A Bool `if` on `k == k` takes the first branch. -/
theorem if_beq_self {α : Type} (k : String) (a b : α) :
    (if k == k then a else b) = a := by simp

/-- A Bool `if` on `k1 == k` with `k1 ≠ k` takes the second branch. -/
theorem if_beq_ne {α : Type} (k1 k : String) (h : k1 ≠ k) (a b : α) :
    (if k1 == k then a else b) = b := by
  rw [beq_false_of_ne h]
  rfl

/-- Key lookup ignores the entries another key's rebinding filtered out. -/
theorem lookup_filter_ne (k k' : String) (h : k ≠ k') :
    ∀ m : List (String × Val),
      List.lookup k (m.filter fun kv => !(kv.1 == k')) = List.lookup k m
  | [] => rfl
  | (k1, v1) :: t => by
    by_cases h1 : k1 = k'
    · subst h1
      rw [List.filter_cons]
      simp only [beq_self_eq_true, Bool.not_true, Bool.false_eq_true, if_false]
      rw [lookup_filter_ne k k1 h t, lookup_cons_ne k k1 v1 t h]
    · rw [List.filter_cons]
      simp only [beq_false_of_ne h1, Bool.not_false, if_true]
      by_cases h2 : k = k1
      · subst h2
        rw [List.lookup_cons_self, List.lookup_cons_self]
      · rw [lookup_cons_ne k k1 v1 _ h2, lookup_cons_ne k k1 v1 t h2,
          lookup_filter_ne k k' h t]

/-- Reading a key just written returns the written value. -/
theorem GetMapValue_SetMapValue_same (m : List (String × Val)) (k : String) (v : Val) :
    GetMapValue (SetMapValue m k v) k = v := by
  simp [GetMapValue, SetMapValue, List.lookup_cons]

/-- Writing one key leaves every other key's read unchanged. -/
theorem GetMapValue_SetMapValue_ne (m : List (String × Val)) (k k' : String) (v : Val)
    (h : k ≠ k') :
    GetMapValue (SetMapValue m k' v) k = GetMapValue m k := by
  simp [GetMapValue, SetMapValue, List.lookup_cons, beq_false_of_ne h,
    lookup_filter_ne k k' h m]

/-- `containsKey` is membership of the key list. -/
theorem containsKey_iff (m : List (String × Int)) (k : String) :
    containsKey m k = true ↔ k ∈ m.map Prod.fst := by
  simp [containsKey, List.any_eq_true, List.mem_map, beq_iff_eq]

/-- Lookup across the replace branch of `mapInsert`, at a different key. -/
theorem lookup_replace_ne (k k' : String) (v : Int) (h : k' ≠ k) :
    ∀ t : List (String × Int),
      List.lookup k' (t.map fun kv => if kv.1 == k then (k, v) else kv) =
        List.lookup k' t
  | [] => rfl
  | (k1, v1) :: t => by
    rw [List.map_cons]
    by_cases h1 : k1 = k
    · subst h1
      rw [if_beq_self, lookup_cons_ne k' k1 v _ h, lookup_cons_ne k' k1 v1 t h,
        lookup_replace_ne k1 k' v h t]
    · rw [if_beq_ne k1 k h1]
      by_cases h2 : k' = k1
      · subst h2
        rw [List.lookup_cons_self, List.lookup_cons_self]
      · rw [lookup_cons_ne k' k1 v1 _ h2, lookup_cons_ne k' k1 v1 t h2,
          lookup_replace_ne k k' v h t]

/-- Lookup across the replace branch, at the inserted key. -/
theorem lookup_replace_same (k : String) (v : Int) :
    ∀ t : List (String × Int), containsKey t k = true →
      List.lookup k (t.map fun kv => if kv.1 == k then (k, v) else kv) = some v
  | [], hc => by simp [containsKey] at hc
  | (k1, v1) :: t, hc => by
    rw [List.map_cons]
    by_cases h1 : k1 = k
    · subst h1
      rw [if_beq_self, List.lookup_cons_self]
    · have hc' : containsKey t k = true := by
        simpa [containsKey, List.any_cons, beq_false_of_ne h1] using hc
      rw [if_beq_ne k1 k h1, lookup_cons_ne k k1 v1 _ (fun hh => h1 hh.symm),
        lookup_replace_same k v t hc']

/-- Lookup across the append branch of `mapInsert`, at the inserted key. -/
theorem lookup_append_same (k : String) (v : Int) :
    ∀ t : List (String × Int), containsKey t k = false →
      List.lookup k (t ++ [(k, v)]) = some v
  | [], _ => by rw [List.nil_append, List.lookup_cons_self]
  | (k1, v1) :: t, hc => by
    have h1 : ¬k1 = k := by
      intro hh
      subst hh
      simp [containsKey, List.any_cons] at hc
    have hc' : containsKey t k = false := by
      simpa [containsKey, List.any_cons, beq_false_of_ne h1] using hc
    rw [List.cons_append, lookup_cons_ne k k1 v1 _ (fun hh => h1 hh.symm),
      lookup_append_same k v t hc']

/-- Lookup across the append branch, at a different key. -/
theorem lookup_append_ne (k k' : String) (v : Int) (h : k' ≠ k) :
    ∀ t : List (String × Int),
      List.lookup k' (t ++ [(k, v)]) = List.lookup k' t
  | [] => by
    rw [List.nil_append, lookup_cons_ne k' k v [] h]
  | (k1, v1) :: t => by
    rw [List.cons_append]
    by_cases h2 : k' = k1
    · subst h2
      rw [List.lookup_cons_self, List.lookup_cons_self]
    · rw [lookup_cons_ne k' k1 v1 _ h2, lookup_cons_ne k' k1 v1 t h2,
        lookup_append_ne k k' v h t]

/-- Go map assignment: the assigned key reads the assigned value. -/
theorem tableLookup_mapInsert_same (m : List (String × Int)) (k : String) (v : Int) :
    tableLookup (mapInsert m k v) k = some v := by
  unfold tableLookup mapInsert
  by_cases hc : containsKey m k = true
  · rw [if_pos hc]
    exact lookup_replace_same k v m hc
  · rw [if_neg hc]
    exact lookup_append_same k v m (Bool.not_eq_true _ ▸ hc)

/-- Go map assignment: every other key's read is unchanged. -/
theorem tableLookup_mapInsert_ne (m : List (String × Int)) (k k' : String) (v : Int)
    (h : k' ≠ k) :
    tableLookup (mapInsert m k v) k' = tableLookup m k' := by
  unfold tableLookup mapInsert
  by_cases hc : containsKey m k = true
  · rw [if_pos hc]
    exact lookup_replace_ne k k' v h m
  · rw [if_neg hc]
    exact lookup_append_ne k k' v h m

/-- Lookup through the `init`-style merge: a key of the base table reads
the base table's value (the base entries are inserted last over the
context-specific starting accumulator), any other key reads the starting
accumulator. -/
theorem tableLookup_foldl_insert (k : String) :
    ∀ (base : List (String × Int)) (acc : List (String × Int)),
      (base.map Prod.fst).Nodup →
      tableLookup (base.foldl (fun a kv => mapInsert a kv.1 kv.2) acc) k =
        if containsKey base k then tableLookup base k else tableLookup acc k
  | [], acc, _ => by simp [containsKey, tableLookup]
  | (k1, v1) :: t, acc, hnd => by
    have hnd' : (t.map Prod.fst).Nodup := (List.nodup_cons.mp (by simpa using hnd)).2
    have hmem : k1 ∉ t.map Prod.fst := (List.nodup_cons.mp (by simpa using hnd)).1
    simp only [List.foldl_cons]
    rw [tableLookup_foldl_insert k t (mapInsert acc k1 v1) hnd']
    by_cases hk : k = k1
    · subst hk
      have hct : containsKey t k = false := by
        rw [Bool.eq_false_iff]
        intro hcon
        exact hmem ((containsKey_iff t k).mp hcon)
      have hcc : containsKey ((k, v1) :: t) k = true := by
        simp [containsKey, List.any_cons]
      rw [hct, hcc]
      simp only [Bool.false_eq_true, if_false, if_true]
      rw [tableLookup_mapInsert_same]
      simp [tableLookup, List.lookup_cons]
    · have hcc : containsKey ((k1, v1) :: t) k = containsKey t k := by
        simp [containsKey, List.any_cons, beq_false_of_ne (fun hh => hk hh.symm)]
      rw [hcc, tableLookup_mapInsert_ne acc k1 k v1 hk]
      by_cases hct : containsKey t k = true
      · rw [if_pos hct, if_pos hct]
        simp [tableLookup, List.lookup_cons, beq_false_of_ne hk]
      · rw [if_neg hct, if_neg hct]

/-- A metric facet for concrete test contexts. -/
def sampleMetric : Metric := { name := "m", description := "", unit := "" }

/-- A scope facet for concrete test contexts. -/
def sampleScope : InstrumentationScope :=
  { name := "sc", version := "", droppedAttributesCountScope := 0 }

/-- A resource facet for concrete test contexts. -/
def sampleResource : Resource := { droppedAttributesCount := 0 }

/-- The binary64 bit pattern of 5.0. -/
def fiveF : Float64 := ⟨0x4014000000000000⟩

/-- The binary64 bit pattern of 1.0. -/
def oneF : Float64 := ⟨0x3FF0000000000000⟩

/-- The binary64 bit pattern of +0.0. -/
def zeroF : Float64 := ⟨0⟩

/-- The spec's P7 subject: Histogram{count:10, sum:5.0, bucket_counts:[1,2,3],
explicit_bounds:[0,1]}. -/
def histP7 : HistogramDataPoint :=
  { attributes := [], startTimestamp := 0, timestamp := 0, count := 10,
    sum := some fiveF, bucketCounts := [1, 2, 3],
    explicitBounds := [zeroF, oneF], exemplars := [], flags := 0 }

/-- The P7 subject wrapped in a fresh context. -/
def ctxP7 : TransformContext :=
  NewTransformContext (.histogram histP7) sampleMetric 0 sampleScope sampleResource

/-- The P7 context after `set(count, 20)`. -/
def ctxP7a : TransformContext := (accessCount.Setter ctxP7 (Val.int 20)).1

/-- The P7 context after the further `set(value_double, 1.0)`. -/
def ctxP7b : TransformContext := (accessDoubleValue.Setter ctxP7a (Val.double oneF)).1

/-- C5: on the P7 histogram, `set(count, 20)` updates exactly the count —
a later get of count reads 20 while sum, bucket_counts and explicit_bounds
are unchanged — and the subsequent `set(value_double, 1.0)` is a no-op (a
Number-only field), so count still reads 20. -/
theorem histogramSetCountScenario :
    ctxP7a = { ctxP7 with dataPoint := .histogram { histP7 with count := 20 } }
    ∧ (accessCount.Getter ctxP7a).1 = Val.int 20
    ∧ (accessSum.Getter ctxP7a).1 = Val.double fiveF
    ∧ (accessBucketCounts.Getter ctxP7a).1 = Val.uintSlice [1, 2, 3]
    ∧ (accessExplicitBounds.Getter ctxP7a).1 = Val.doubleSlice [zeroF, oneF]
    ∧ ctxP7b = ctxP7a
    ∧ (accessCount.Getter ctxP7b).1 = Val.int 20 := by
  refine ⟨?_, ?_, ?_, ?_, ?_, ?_, ?_⟩ <;> rfl

/-- C8: every context built by `NewTransformContext` starts with an empty
cache (so a cache read on a fresh context finds the key absent); a value
written under key `k` is read back by a later get of `k` on the same
context; and a write under a different key leaves the read of `k`
unchanged. -/
theorem cacheSemantics :
    (∀ dp mt ms sc re, (NewTransformContext dp mt ms sc re).cache = [])
    ∧ (∀ dp mt ms sc re k,
        (accessCacheKey k).Getter (NewTransformContext dp mt ms sc re) = (Val.nil, none))
    ∧ (∀ tCtx k v,
        (accessCacheKey k).Getter ((accessCacheKey k).Setter tCtx v).1 = (v, none))
    ∧ (∀ tCtx k k' v', k ≠ k' →
        (accessCacheKey k).Getter ((accessCacheKey k').Setter tCtx v').1 =
          (accessCacheKey k).Getter tCtx) := by
  refine ⟨fun _ _ _ _ _ => rfl, fun _ _ _ _ _ _ => rfl, ?_, ?_⟩
  · intro tCtx k v
    simp only [accessCacheKey]
    rw [GetMapValue_SetMapValue_same]
  · intro tCtx k k' v' h
    simp only [accessCacheKey]
    rw [GetMapValue_SetMapValue_ne tCtx.cache k k' v' h]

/-- C10: the exemplars accessor treats a Summary data point as lacking the
field — get is absent with no error and set is a no-op for every supplied
value — while for Number, Histogram and ExponentialHistogram subjects it
reads the data point's exemplars and (given an exemplar slice) writes
them. -/
theorem exemplarsVariantAccess :
    (∀ s mt ms sc re ca,
        accessExemplars.Getter ⟨.summary s, mt, ms, sc, re, ca⟩ = (Val.nil, none))
    ∧ (∀ s mt ms sc re ca v,
        accessExemplars.Setter ⟨.summary s, mt, ms, sc, re, ca⟩ v =
          (⟨.summary s, mt, ms, sc, re, ca⟩, none))
    ∧ (∀ n mt ms sc re ca,
        accessExemplars.Getter ⟨.number n, mt, ms, sc, re, ca⟩ =
          (Val.exemplarSlice n.exemplars, none))
    ∧ (∀ h mt ms sc re ca,
        accessExemplars.Getter ⟨.histogram h, mt, ms, sc, re, ca⟩ =
          (Val.exemplarSlice h.exemplars, none))
    ∧ (∀ e mt ms sc re ca,
        accessExemplars.Getter ⟨.expHistogram e, mt, ms, sc, re, ca⟩ =
          (Val.exemplarSlice e.exemplars, none))
    ∧ (∀ n mt ms sc re ca xs,
        accessExemplars.Setter ⟨.number n, mt, ms, sc, re, ca⟩ (Val.exemplarSlice xs) =
          (⟨.number { n with exemplars := xs }, mt, ms, sc, re, ca⟩, none))
    ∧ (∀ h mt ms sc re ca xs,
        accessExemplars.Setter ⟨.histogram h, mt, ms, sc, re, ca⟩ (Val.exemplarSlice xs) =
          (⟨.histogram { h with exemplars := xs }, mt, ms, sc, re, ca⟩, none))
    ∧ (∀ e mt ms sc re ca xs,
        accessExemplars.Setter ⟨.expHistogram e, mt, ms, sc, re, ca⟩ (Val.exemplarSlice xs) =
          (⟨.expHistogram { e with exemplars := xs }, mt, ms, sc, re, ca⟩, none)) := by
  refine ⟨fun _ _ _ _ _ _ => rfl, ?_, fun _ _ _ _ _ _ => rfl, fun _ _ _ _ _ _ => rfl,
    fun _ _ _ _ _ _ => rfl, fun _ _ _ _ _ _ _ => rfl, fun _ _ _ _ _ _ _ => rfl,
    fun _ _ _ _ _ _ _ => rfl⟩
  intro s mt ms sc re ca v
  cases v <;> rfl

/-- Whether compile-time enum resolution produced a value. -/
def exceptHasValue (e : Except String Int) : Bool :=
  match e with
  | .ok _ => true
  | .error _ => false

/-- C7: "FLAG_NO_RECORDED_VALUE" resolves to 1, an unknown symbol fails
with the "not found" error, a nil symbol fails with the "not provided"
error, and resolution succeeds exactly on the symbols of the merged
table. -/
theorem enumSymbolResolution :
    parseEnum (some "FLAG_NO_RECORDED_VALUE") = .ok 1
    ∧ parseEnum (some "FLAG_BOGUS") = .error "enum symbol, FLAG_BOGUS, not found"
    ∧ parseEnum none = .error "enum symbol not provided"
    ∧ ∀ s, exceptHasValue (parseEnum (some s)) = (tableLookup symbolTable s).isSome := by
  refine ⟨rfl, rfl, rfl, ?_⟩
  intro s
  rcases h : tableLookup symbolTable s with _ | v <;>
    simp [parseEnum, h, exceptHasValue]

/-- C2 (amended): the merge starts from the context-specific entries and
inserts the base table's entries over them, so a key of the base table
reads the base table's value — the base table, not the context-specific
table, wins a collision — and only keys absent from the base table read
the context-specific entries; with the actual base table (which has no
FLAG_* keys) the merged table still maps FLAG_NONE to 0 and
FLAG_NO_RECORDED_VALUE to 1. -/
theorem symbolTableMergePrecedence (base : List (String × Int)) (k : String)
    (hnd : (base.map Prod.fst).Nodup) :
    (containsKey base k = true →
      tableLookup (mergedTable base) k = tableLookup base k)
    ∧ (containsKey base k = false →
      tableLookup (mergedTable base) k = tableLookup symbolTableLit k)
    ∧ tableLookup symbolTable "FLAG_NONE" = some 0
    ∧ tableLookup symbolTable "FLAG_NO_RECORDED_VALUE" = some 1 := by
  refine ⟨?_, ?_, rfl, rfl⟩
  · intro hc
    rw [mergedTable, tableLookup_foldl_insert k base symbolTableLit hnd, if_pos hc]
  · intro hc
    rw [mergedTable, tableLookup_foldl_insert k base symbolTableLit hnd,
      if_neg (by simp [hc])]

/-- Witness for the amended C2 at a concrete base table and key. -/
theorem symbolTableMergePrecedence_witness :
    (containsKey [("X", 7)] "X" = true →
      tableLookup (mergedTable [("X", 7)]) "X" = tableLookup [("X", 7)] "X")
    ∧ (containsKey [("X", 7)] "X" = false →
      tableLookup (mergedTable [("X", 7)]) "X" = tableLookup symbolTableLit "X")
    ∧ tableLookup symbolTable "FLAG_NONE" = some 0
    ∧ tableLookup symbolTable "FLAG_NO_RECORDED_VALUE" = some 1 :=
  symbolTableMergePrecedence [("X", 7)] "X" (by decide)

/-- C2 counterexample: on a base table with a (hypothetical) colliding
"FLAG_NONE" entry of value 5, the code's merge reads back 5 — the base
entry, inserted last, wins — whereas the construction the claim describes
(base first, then the context-specific entries) would read back 0. -/
theorem symbolTableMergePrecedence_counterexample :
    tableLookup (mergedTable [("FLAG_NONE", 5)]) "FLAG_NONE" = some 5
    ∧ tableLookup (mergedTableClaim [("FLAG_NONE", 5)]) "FLAG_NONE" = some 0
    ∧ mergedTable [("FLAG_NONE", 5)] ≠ mergedTableClaim [("FLAG_NONE", 5)] := by
  refine ⟨rfl, rfl, by decide⟩

/-- C1: for every data-point field accessor produced by `newPathGetSetter`
and every context whose subject is one of the four variants, Get returns
the field's value with no error — the absent marker (untyped nil) exactly
when the field is not defined for the subject's current variant — and on
an undefined field Set returns no error and leaves the context (record and
cache alike) unchanged, whatever value is supplied. -/
theorem variantDispatch (f : FieldId) (tCtx : TransformContext)
    (hv : tCtx.dataPoint.isVariant = true) :
    (fieldAccessor f).Getter tCtx = (fieldValue f tCtx.dataPoint, none)
    ∧ (definedFor f tCtx.dataPoint = false → fieldValue f tCtx.dataPoint = Val.nil)
    ∧ (definedFor f tCtx.dataPoint = false →
        ∀ v, (fieldAccessor f).Setter tCtx v = (tCtx, none)) := by
  obtain ⟨dp, mt, ms, sc, re, ca⟩ := tCtx
  refine ⟨?_, ?_, ?_⟩
  · cases f <;> cases dp <;> rfl
  · cases f <;> cases dp <;> simp [definedFor, fieldValue]
  · intro hundef v
    cases f <;> cases dp <;>
      first
        | (cases v <;> rfl)
        | (simp [definedFor] at hundef)

/-- A Summary data point for concrete witnesses. -/
def summarySample : SummaryDataPoint :=
  { attributes := [], startTimestamp := 1, timestamp := 2, count := 3,
    sum := fiveF, quantileValues := [], flags := 0 }

/-- The Summary sample wrapped in a fresh context. -/
def ctxSummary : TransformContext :=
  NewTransformContext (.summary summarySample) sampleMetric 0 sampleScope sampleResource

/-- Witness for C1: value_double on a Summary subject. -/
theorem variantDispatch_witness :
    (fieldAccessor FieldId.valueDouble).Getter ctxSummary =
      (fieldValue FieldId.valueDouble ctxSummary.dataPoint, none)
    ∧ (definedFor FieldId.valueDouble ctxSummary.dataPoint = false →
        fieldValue FieldId.valueDouble ctxSummary.dataPoint = Val.nil)
    ∧ (definedFor FieldId.valueDouble ctxSummary.dataPoint = false →
        ∀ v, (fieldAccessor FieldId.valueDouble).Setter ctxSummary v = (ctxSummary, none)) :=
  variantDispatch FieldId.valueDouble ctxSummary rfl

/-- C3: Set with a value whose dynamic type does not match the type the
field's setter asserts returns no error and leaves the whole context —
record and cache — unchanged, on every subject; the whole-cache accessor
behaves likewise for any non-map value. -/
theorem setTypeMismatch (f : FieldId) (tCtx : TransformContext) (v : Val)
    (hm : typeMatches f v = false) :
    (fieldAccessor f).Setter tCtx v = (tCtx, none)
    ∧ ∀ w, (∀ entries, w ≠ Val.map entries) →
        accessCache.Setter tCtx w = (tCtx, none) := by
  obtain ⟨dp, mt, ms, sc, re, ca⟩ := tCtx
  refine ⟨?_, ?_⟩
  · cases f <;> cases v <;>
      first
        | (cases dp <;> rfl)
        | (simp [typeMatches] at hm)
  · intro w hw
    cases w <;> first | rfl | (exact absurd rfl (hw _))

/-- Witness for C3: a string supplied to the int64-typed count setter on
the P7 histogram context. -/
theorem setTypeMismatch_witness :
    (fieldAccessor FieldId.count).Setter ctxP7 (Val.str "ten") = (ctxP7, none)
    ∧ ∀ w, (∀ entries, w ≠ Val.map entries) →
        accessCache.Setter ctxP7 w = (ctxP7, none) :=
  setTypeMismatch FieldId.count ctxP7 (Val.str "ten") rfl

/-- A Number data point currently holding the int value 42. -/
def numInt42 : NumberDataPoint :=
  { attributes := [], startTimestamp := 0, timestamp := 0, value := .asInt 42,
    exemplars := [], flags := 0 }

/-- The int-valued Number sample wrapped in a fresh context. -/
def ctxInt42 : TransformContext :=
  NewTransformContext (.number numInt42) sampleMetric 0 sampleScope sampleResource

/-- C4 counterexample: value_double supports both Get and Set and is
defined for the Number variant, yet on an int-valued Number point
`Set(Get())` does not leave the record observably unchanged: `Get` reads
the oneof's double field (0.0) and `Set` switches the oneof to the double
case, after which value_int reads 0 instead of 42. -/
theorem setGetRoundTrip_counterexample :
    definedFor FieldId.valueDouble ctxInt42.dataPoint = true
    ∧ (accessIntValue.Getter ctxInt42).1 = Val.int 42
    ∧ (accessIntValue.Getter
        ((fieldAccessor FieldId.valueDouble).Setter ctxInt42
          ((fieldAccessor FieldId.valueDouble).Getter ctxInt42).1).1).1 = Val.int 0
    ∧ (accessIntValue.Getter
        ((fieldAccessor FieldId.valueDouble).Setter ctxInt42
          ((fieldAccessor FieldId.valueDouble).Getter ctxInt42).1).1).1 ≠
      (accessIntValue.Getter ctxInt42).1 := by
  refine ⟨rfl, rfl, rfl, ?_⟩
  intro hcon
  simp only [fieldAccessor, accessDoubleValue, accessIntValue, ctxInt42, numInt42,
    NewTransformContext, NumberDataPoint.DoubleValue, NumberDataPoint.IntValue] at hcon
  exact absurd (Val.int.inj hcon) (by decide)

/-- C4 (amended): the `Set(Get())` round trip does leave the record
unchanged for count and for the two timestamp accessors, on every variant
that defines the field, given the stored `uint64` fields are in range: the
paired `uint64`/`int64` reinterpretations are mutually inverse. (The
counterexample shows it does not hold for every accessor supporting both
Get and Set: value_double on an int-valued Number point switches the
oneof.) -/
theorem setGetRoundTrip (f : FieldId) (tCtx : TransformContext)
    (hf : f = FieldId.count ∨ f = FieldId.startTimeUnixNano ∨ f = FieldId.timeUnixNano)
    (hwf : tCtx.dataPoint.wf)
    (hdef : definedFor f tCtx.dataPoint = true) :
    (fieldAccessor f).Setter tCtx ((fieldAccessor f).Getter tCtx).1 = (tCtx, none) := by
  obtain ⟨dp, mt, ms, sc, re, ca⟩ := tCtx
  rcases hf with hf | hf | hf <;> subst hf <;> cases dp <;>
    simp_all [definedFor, DataPoint.wf, fieldAccessor, accessCount,
      accessStartTimeUnixNano, accessTimeUnixNano, toUint64_toInt64]

/-- Witness for the amended C4: count on the P7 histogram context. -/
theorem setGetRoundTrip_witness :
    (fieldAccessor FieldId.count).Setter ctxP7
      ((fieldAccessor FieldId.count).Getter ctxP7).1 = (ctxP7, none) :=
  setGetRoundTrip FieldId.count ctxP7 (Or.inl rfl)
    ⟨by decide, by decide, by decide, by decide⟩ rfl

/-- The names of `newPathGetSetter`'s fixed first-segment dispatch table. -/
def dispatchNames : List String :=
  ["cache", "resource", "instrumentation_scope", "metric", "attributes",
   "start_time_unix_nano", "time_unix_nano", "value_double", "value_int",
   "exemplars", "flags", "count", "sum", "bucket_counts", "explicit_bounds",
   "scale", "zero_count", "positive", "negative", "quantile_values"]

/-- C6: `parsePath` fails on a nil path and on a path with no fields
("bad path"); a first segment outside the fixed dispatch table — and, under
positive/negative, a second segment that is neither offset nor
bucket_counts — is the compile-time "invalid path expression" error naming
the full offending path, producing no accessor. (Resolution is a function
of the path alone: by construction no record takes part in it.) -/
theorem pathResolution (f f2 : Field) (rest rest2 : List Field)
    (hn : f.Name ∉ dispatchNames)
    (h2a : f2.Name ≠ "offset") (h2b : f2.Name ≠ "bucket_counts") :
    parsePath none = .error "bad path <nil>"
    ∧ parsePath (some ⟨[]⟩) = .error "bad path "
    ∧ parsePath (some ⟨f :: rest⟩) = .error (invalidPathMsg (f :: rest))
    ∧ (∀ g : Field, g.Name = "positive" ∨ g.Name = "negative" →
        parsePath (some ⟨g :: f2 :: rest2⟩) =
          .error (invalidPathMsg (g :: f2 :: rest2))) := by
  refine ⟨rfl, rfl, ?_, ?_⟩
  · simp only [dispatchNames, List.mem_cons, List.not_mem_nil, or_false] at hn
    push_neg at hn
    obtain ⟨h1, h2, h3, h4, h5, h6, h7, h8, h9, h10, h11, h12, h13, h14, h15,
      h16, h17, h18, h19, h20⟩ := hn
    simp [parsePath, newPathGetSetter, h1, h2, h3, h4, h5, h6, h7, h8, h9, h10,
      h11, h12, h13, h14, h15, h16, h17, h18, h19, h20]
  · intro g hg
    rcases hg with hg | hg <;>
      simp [parsePath, newPathGetSetter, hg, h2a, h2b]

/-- Witness for C6 at the spec's `bogus_field` and a bad sub-segment. -/
theorem pathResolution_witness :
    parsePath none = .error "bad path <nil>"
    ∧ parsePath (some ⟨[]⟩) = .error "bad path "
    ∧ parsePath (some ⟨[⟨"bogus_field", none⟩]⟩) =
        .error (invalidPathMsg [⟨"bogus_field", none⟩])
    ∧ (∀ g : Field, g.Name = "positive" ∨ g.Name = "negative" →
        parsePath (some ⟨[g, ⟨"oops", none⟩]⟩) =
          .error (invalidPathMsg [g, ⟨"oops", none⟩])) :=
  pathResolution ⟨"bogus_field", none⟩ ⟨"oops", none⟩ [] [] (by decide)
    (by decide) (by decide)

/-- An ExponentialHistogram data point for concrete witnesses. -/
def expSample : ExponentialHistogramDataPoint :=
  { attributes := [], startTimestamp := 0, timestamp := 0, count := 1,
    sum := none, scale := 0, zeroCount := 2, positive := ⟨0, []⟩,
    negative := ⟨0, []⟩, exemplars := [], flags := 0 }

/-- C9: the integer accessors are fixed-width reinterpretations, not
checked conversions. Get on count, zero_count and flags returns an int64
congruent mod `2^64` to the stored unsigned value and lying in int64 range
— so a stored count at or above `2^63` reads back negative; Set on count
and zero_count stores a `uint64` congruent mod `2^64` to the supplied
int64; Set on scale and the positive/negative offsets stores the supplied
value's low 32 bits as an int32 (congruent mod `2^32`, in int32 range). -/
theorem fixedWidthConversions (h : HistogramDataPoint)
    (e : ExponentialHistogramDataPoint) (n : NumberDataPoint) (mt : Metric)
    (ms : Nat) (sc : InstrumentationScope) (re : Resource)
    (ca : List (String × Val)) (i : Int)
    (hc : h.count < 2 ^ 64) (hz : e.zeroCount < 2 ^ 64) (hfl : n.flags < 2 ^ 32) :
    (∃ v, accessCount.Getter ⟨.histogram h, mt, ms, sc, re, ca⟩ = (Val.int v, none)
      ∧ v % 2 ^ 64 = (h.count : Int) % 2 ^ 64 ∧ -2 ^ 63 ≤ v ∧ v < 2 ^ 63
      ∧ (2 ^ 63 ≤ h.count → v < 0))
    ∧ (∃ v, accessZeroCount.Getter ⟨.expHistogram e, mt, ms, sc, re, ca⟩ = (Val.int v, none)
      ∧ v % 2 ^ 64 = (e.zeroCount : Int) % 2 ^ 64 ∧ -2 ^ 63 ≤ v ∧ v < 2 ^ 63
      ∧ (2 ^ 63 ≤ e.zeroCount → v < 0))
    ∧ (∃ v, accessFlags.Getter ⟨.number n, mt, ms, sc, re, ca⟩ = (Val.int v, none)
      ∧ v % 2 ^ 64 = (n.flags : Int) % 2 ^ 64 ∧ -2 ^ 63 ≤ v ∧ v < 2 ^ 63)
    ∧ (∃ c, accessCount.Setter ⟨.histogram h, mt, ms, sc, re, ca⟩ (Val.int i)
        = (⟨.histogram { h with count := c }, mt, ms, sc, re, ca⟩, none)
      ∧ (c : Int) % 2 ^ 64 = i % 2 ^ 64 ∧ c < 2 ^ 64)
    ∧ (∃ z, accessZeroCount.Setter ⟨.expHistogram e, mt, ms, sc, re, ca⟩ (Val.int i)
        = (⟨.expHistogram { e with zeroCount := z }, mt, ms, sc, re, ca⟩, none)
      ∧ (z : Int) % 2 ^ 64 = i % 2 ^ 64 ∧ z < 2 ^ 64)
    ∧ (∃ s, accessScale.Setter ⟨.expHistogram e, mt, ms, sc, re, ca⟩ (Val.int i)
        = (⟨.expHistogram { e with scale := s }, mt, ms, sc, re, ca⟩, none)
      ∧ s % 2 ^ 32 = i % 2 ^ 32 ∧ -2 ^ 31 ≤ s ∧ s < 2 ^ 31)
    ∧ (∃ o, accessPositiveOffset.Setter ⟨.expHistogram e, mt, ms, sc, re, ca⟩ (Val.int i)
        = (⟨.expHistogram { e with positive := { e.positive with offset := o } }, mt, ms, sc, re, ca⟩, none)
      ∧ o % 2 ^ 32 = i % 2 ^ 32 ∧ -2 ^ 31 ≤ o ∧ o < 2 ^ 31)
    ∧ (∃ o, accessNegativeOffset.Setter ⟨.expHistogram e, mt, ms, sc, re, ca⟩ (Val.int i)
        = (⟨.expHistogram { e with negative := { e.negative with offset := o } }, mt, ms, sc, re, ca⟩, none)
      ∧ o % 2 ^ 32 = i % 2 ^ 32 ∧ -2 ^ 31 ≤ o ∧ o < 2 ^ 31) := by
  refine ⟨⟨toInt64 h.count, rfl, ?_, ?_, ?_, ?_⟩,
    ⟨toInt64 e.zeroCount, rfl, ?_, ?_, ?_, ?_⟩,
    ⟨(n.flags : Int), rfl, ?_, ?_, ?_⟩,
    ⟨toUint64 i, rfl, ?_, ?_⟩, ⟨toUint64 i, rfl, ?_, ?_⟩,
    ⟨toInt32 i, rfl, ?_, ?_, ?_⟩, ⟨toInt32 i, rfl, ?_, ?_, ?_⟩,
    ⟨toInt32 i, rfl, ?_, ?_, ?_⟩⟩ <;>
    first
      | (unfold toInt64; split <;> omega)
      | (unfold toUint64; omega)
      | (unfold toInt32; split <;> omega)
      | omega

/-- Witness for C9 at concrete data points and the supplied int64 -1. -/
theorem fixedWidthConversions_witness :
    (∃ v, accessCount.Getter ⟨.histogram histP7, sampleMetric, 0, sampleScope, sampleResource, []⟩ = (Val.int v, none)
      ∧ v % 2 ^ 64 = (histP7.count : Int) % 2 ^ 64 ∧ -2 ^ 63 ≤ v ∧ v < 2 ^ 63
      ∧ (2 ^ 63 ≤ histP7.count → v < 0))
    ∧ (∃ v, accessZeroCount.Getter ⟨.expHistogram expSample, sampleMetric, 0, sampleScope, sampleResource, []⟩ = (Val.int v, none)
      ∧ v % 2 ^ 64 = (expSample.zeroCount : Int) % 2 ^ 64 ∧ -2 ^ 63 ≤ v ∧ v < 2 ^ 63
      ∧ (2 ^ 63 ≤ expSample.zeroCount → v < 0))
    ∧ (∃ v, accessFlags.Getter ⟨.number numInt42, sampleMetric, 0, sampleScope, sampleResource, []⟩ = (Val.int v, none)
      ∧ v % 2 ^ 64 = (numInt42.flags : Int) % 2 ^ 64 ∧ -2 ^ 63 ≤ v ∧ v < 2 ^ 63)
    ∧ (∃ c, accessCount.Setter ⟨.histogram histP7, sampleMetric, 0, sampleScope, sampleResource, []⟩ (Val.int (-1))
        = (⟨.histogram { histP7 with count := c }, sampleMetric, 0, sampleScope, sampleResource, []⟩, none)
      ∧ (c : Int) % 2 ^ 64 = (-1 : Int) % 2 ^ 64 ∧ c < 2 ^ 64)
    ∧ (∃ z, accessZeroCount.Setter ⟨.expHistogram expSample, sampleMetric, 0, sampleScope, sampleResource, []⟩ (Val.int (-1))
        = (⟨.expHistogram { expSample with zeroCount := z }, sampleMetric, 0, sampleScope, sampleResource, []⟩, none)
      ∧ (z : Int) % 2 ^ 64 = (-1 : Int) % 2 ^ 64 ∧ z < 2 ^ 64)
    ∧ (∃ s, accessScale.Setter ⟨.expHistogram expSample, sampleMetric, 0, sampleScope, sampleResource, []⟩ (Val.int (-1))
        = (⟨.expHistogram { expSample with scale := s }, sampleMetric, 0, sampleScope, sampleResource, []⟩, none)
      ∧ s % 2 ^ 32 = (-1 : Int) % 2 ^ 32 ∧ -2 ^ 31 ≤ s ∧ s < 2 ^ 31)
    ∧ (∃ o, accessPositiveOffset.Setter ⟨.expHistogram expSample, sampleMetric, 0, sampleScope, sampleResource, []⟩ (Val.int (-1))
        = (⟨.expHistogram { expSample with positive := { expSample.positive with offset := o } }, sampleMetric, 0, sampleScope, sampleResource, []⟩, none)
      ∧ o % 2 ^ 32 = (-1 : Int) % 2 ^ 32 ∧ -2 ^ 31 ≤ o ∧ o < 2 ^ 31)
    ∧ (∃ o, accessNegativeOffset.Setter ⟨.expHistogram expSample, sampleMetric, 0, sampleScope, sampleResource, []⟩ (Val.int (-1))
        = (⟨.expHistogram { expSample with negative := { expSample.negative with offset := o } }, sampleMetric, 0, sampleScope, sampleResource, []⟩, none)
      ∧ o % 2 ^ 32 = (-1 : Int) % 2 ^ 32 ∧ -2 ^ 31 ≤ o ∧ o < 2 ^ 31) :=
  fixedWidthConversions histP7 expSample numInt42 sampleMetric 0 sampleScope
    sampleResource [] (-1) (by decide) (by decide) (by decide)

end OTTL
